import Mathlib

/-!
# Verification of the empress-fsm transition engine

Shallow embedding of the empress-fsm repository (TypeScript) in Lean 4.

The repository ships two FSM variants:

* the latest variant, class g of dist/index.js (snapshot queue
  storeStates, processTransition / canTransit / transition /
  processOnExit / processOnEnter, a deferred-promise transition gate,
  and an isRunning flag). It is embedded below in namespace Dist.
* the legacy variant, src/fsm/fsm.ts (guard flags isTransitioning and
  isExecutingLifecycle, a pendingUpdates queue of discarded thunks, and
  the checkTransitions / transition / applyPendingUpdates recursion).
  It is embedded in namespace Src, with an explicit fuel parameter for
  the mutual recursion.

Modelling conventions:

* Execution is the cooperative single-threaded model of the source:
  every await point resumes in program order, and no external mutation
  interleaves inside one embedded call.  Calls into the external
  execution engine (create / run / stop), hook invocations and
  sub-machine delegation are recorded as events in a trace rather than
  interpreted, because the engine and the actions are external
  collaborators of this repository.
* The external empress-store is modelled from its interface contract:
  the adapter holds a current and a previous value, a committed
  mutation moves current to previous, applies the updater and fires the
  subscribed callback exactly once.  An updater returning an empty
  partial is the updater whose merge leaves the state unchanged.
* Execution handles are freshly numbered naturals (the engine returns
  opaque unique ids); the empty-string id of the latest variant is
  Option.none.
* Thrown JS exceptions are the err field of a StepOut; fields mutated
  before the throw stay mutated, as in JS.
* The event evalSnap records that a queued snapshot was dequeued and
  submitted to canTransit; it instruments the drain order and is the
  only event that is not a direct image of a source call.
-/

/-- Transition strategies of the source (enum TransitionStrategy). -/
inductive TransitionStrategy where
  | stop
  | wait
deriving DecidableEq, Repr

/-- Lifecycle method selector: the string keys onEnter / onExit. -/
inductive LMethod where
  | onEnter
  | onExit
deriving DecidableEq, Repr

/-- Context handed to a function-valued transitionStrategy
(TransitionContext of the source: from, to and the bound store,
the store being represented by its current and previous values). -/
structure StrategyCtx (T : Type) where
  fromState : String
  toState : String
  storeCur : T
  storePrev : T

/-- The transitionStrategy field of a state definition: absent,
a static enum value, or a function of the context. -/
inductive StrategySpec (T : Type) where
  | unset
  | static (s : TransitionStrategy)
  | func (f : StrategyCtx T → TransitionStrategy)

/-- Whether the raw field compares === TransitionStrategy.Stop, as the
latest variant update() does: only the static value does. -/
def StrategySpec.rawIsStop {T : Type} : StrategySpec T → Bool
  | .static .stop => true
  | _ => false

/-- One transition entry: target name and condition on (current, prev). -/
structure TransitionCfg (T : Type) where
  toState : String
  condition : T → T → Bool

/-- The onEnter / onExit field of a state: a SystemChain callback or an
ordered group list (group identities are opaque naturals). -/
inductive StateActions where
  | chain
  | groups (gs : List Nat)
deriving DecidableEq, Repr

/-- A state definition (IStateConfig).  Sub-machines are delegated
collaborators, so only their presence is recorded. -/
structure StateConfig (T : Type) where
  name : String
  transitions : Option (List (TransitionCfg T)) := none
  subStates : Bool := false
  onEnter : Option StateActions := none
  onExit : Option StateActions := none
  transitionStrategy : StrategySpec T := .unset

/-- Events observable at the boundary of one machine: execution-engine
calls, hook invocations, sub-machine delegation, the deferred-promise
gate, and the evalSnap instrumentation event. -/
inductive Event (T : Type) where
  | createExec (id : Nat) (state : String) (method : LMethod)
  | runExec (id : Nat) (awaited : Bool)
  | stopExec (id : Option Nat)
  | hook (method : LMethod) (fromState toState : String)
  | gateReset
  | gateResolve
  | awaitGate
  | subStart (state : String)
  | subStop (state : String)
  | evalSnap (cur prev : T)
deriving DecidableEq

/-- Map.set semantics of the constructor loop: overwrite the entry with
the same name, else append. -/
def setState {T : Type} (l : List (StateConfig T)) (s : StateConfig T) :
    List (StateConfig T) :=
  if l.any (fun x => x.name == s.name) then
    l.map (fun x => if x.name == s.name then s else x)
  else
    l ++ [s]

/-- Map.get semantics: the entry registered under a name. -/
def lookupState {T : Type} (l : List (StateConfig T)) (n : String) :
    Option (StateConfig T) :=
  l.find? (fun s => s.name == n)

/-- First-match loop of canTransit / checkTransitions: the target of the
first transition whose condition holds. -/
def firstTo {T : Type} : List (TransitionCfg T) → T → T → Option String
  | [], _, _ => none
  | t :: rest, c, p =>
      if t.condition c p then some t.toState else firstTo rest c p

/-- Number of conditions the first-match loop evaluates before stopping
(instrumented mirror of firstTo, one evaluation per loop iteration). -/
def evalCount {T : Type} : List (TransitionCfg T) → T → T → Nat
  | [], _, _ => 0
  | t :: rest, c, p =>
      if t.condition c p then 1 else evalCount rest c p + 1

/-- Result of one embedded call: machine after the call, emitted trace,
and the thrown exception if any. -/
structure StepOut (M T : Type) where
  m : M
  tr : List (Event T)
  err : Option String

/-- Sequencing with JS exception semantics: a thrown first part skips
the continuation, events before the throw remain. -/
def StepOut.seq {M T : Type} (r : StepOut M T) (f : M → StepOut M T) :
    StepOut M T :=
  match r.err with
  | some _ => r
  | none =>
      let r2 := f r.m
      ⟨r2.m, r.tr ++ r2.tr, r2.err⟩

/-- Number of execution-engine stop calls in a trace. -/
def countStop {T : Type} (tr : List (Event T)) : Nat :=
  tr.countP (fun e => match e with | .stopExec _ => true | _ => false)

/-- Number of execution-engine create calls in a trace. -/
def countCreate {T : Type} (tr : List (Event T)) : Nat :=
  tr.countP (fun e => match e with | .createExec _ _ _ => true | _ => false)

/-- Number of gate resets (transitions initiated) in a trace. -/
def countGateReset {T : Type} (tr : List (Event T)) : Nat :=
  tr.countP (fun e => match e with | .gateReset => true | _ => false)

/-- Number of awaits of the transition gate in a trace. -/
def countAwaitGate {T : Type} (tr : List (Event T)) : Nat :=
  tr.countP (fun e => match e with | .awaitGate => true | _ => false)

/-- Snapshots submitted for evaluation, in trace order. -/
def evalSnaps {T : Type} (tr : List (Event T)) : List (T × T) :=
  tr.filterMap (fun e => match e with
    | .evalSnap c p => some (c, p)
    | _ => none)

/-- Number of hook invocations of a given method in a trace. -/
def countHook {T : Type} (meth : LMethod) (tr : List (Event T)) : Nat :=
  tr.countP (fun e => match e with
    | .hook m _ _ => m == meth
    | _ => false)

namespace Dist

/-- Machine instance state of the latest variant (class g of
dist/index.js) together with its bound store adapter.  The deferred
transition promise is represented by gate events in traces; the
adapter subscription by the subscribed flag. -/
structure FSM (T : Type) where
  name : String
  states : List (StateConfig T)
  currentState : String
  currentExecutionId : Option Nat
  storeStates : List (T × T)
  currentStateData : Option (T × T)
  isRunning : Bool
  hooksOnEnter : Bool
  hooksOnExit : Bool
  storeCur : T
  storePrev : T
  subscribed : Bool
  nextId : Nat

/-- Constructor input (IFSMConfig plus the initial store contents and
hook presence). -/
structure FSMConfig (T : Type) where
  name : String
  initialState : String
  states : List (StateConfig T)
  hooksOnEnter : Bool := false
  hooksOnExit : Bool := false
  storeCur : T
  storePrev : T

/-- The class g constructor: copy the config, build the state map with
Map.set, subscribe to the adapter.  It performs no validation and
cannot fail. -/
def FSM.ofConfig {T : Type} (cfg : FSMConfig T) : FSM T :=
  { name := cfg.name
    states := cfg.states.foldl setState []
    currentState := cfg.initialState
    currentExecutionId := none
    storeStates := []
    currentStateData := none
    isRunning := false
    hooksOnEnter := cfg.hooksOnEnter
    hooksOnExit := cfg.hooksOnExit
    storeCur := cfg.storeCur
    storePrev := cfg.storePrev
    subscribed := true
    nextId := 0 }

/-- addStoreData: push the adapter snapshot (current, prev) at the back
of the queue. -/
def addStoreData {T : Type} (m : FSM T) : FSM T :=
  { m with storeStates := m.storeStates ++ [(m.storeCur, m.storePrev)] }

/-- getStoreData: shift from the front (or pop from the back when the
flag is set; no call site sets it). -/
def getStoreData {T : Type} (m : FSM T) (last : Bool) :
    Option (T × T) × FSM T :=
  if last then
    match m.storeStates.getLast? with
    | none => (none, m)
    | some t => (some t, { m with storeStates := m.storeStates.dropLast })
  else
    match m.storeStates with
    | [] => (none, m)
    | t :: rest => (some t, { m with storeStates := rest })

/-- canTransit: nothing while not running, nothing for an unknown state
or a state without transitions, else the first satisfied condition
selects the target. -/
def canTransit {T : Type} (m : FSM T) (stateName : String) (cur prev : T) :
    Option String :=
  if !m.isRunning then none
  else
    match lookupState m.states stateName with
    | none => none
    | some s =>
        match s.transitions with
        | none => none
        | some ts => firstTo ts cur prev

/-- processOnExit: no-op when the state defines no onExit actions, else
create an execution, invoke the global onExit hook if configured, and
run the execution without awaiting completion.  The created handle is a
local; it is never stored on the machine. -/
def processOnExit {T : Type} (m : FSM T) (stateName : String)
    (_data : Option (T × T)) : StepOut (FSM T) T :=
  match lookupState m.states stateName with
  | none => ⟨m, [], some ("State " ++ stateName ++ " not found")⟩
  | some i =>
      match i.onExit with
      | none => ⟨m, [], none⟩
      | some _ =>
          let d := m.nextId
          let hookTr : List (Event T) :=
            if m.hooksOnExit then [Event.hook .onExit stateName ""] else []
          ⟨{ m with nextId := d + 1 },
            Event.createExec d stateName .onExit :: hookTr
              ++ [Event.runExec d false],
            none⟩

/-- processOnEnter: no-op when the state defines no onEnter actions,
else create an execution, store its handle, set currentState, invoke
the global onEnter hook if configured, and await the run. -/
def processOnEnter {T : Type} (m : FSM T) (toState fromState : String)
    (_snap : T × T) : StepOut (FSM T) T :=
  match lookupState m.states toState with
  | none => ⟨m, [], some ("State " ++ toState ++ " not found")⟩
  | some s =>
      match s.onEnter with
      | none => ⟨m, [], none⟩
      | some _ =>
          let d := m.nextId
          let hookTr : List (Event T) :=
            if m.hooksOnEnter then [Event.hook .onEnter fromState toState]
            else []
          ⟨{ m with
              nextId := d + 1
              currentExecutionId := some d
              currentState := toState },
            Event.createExec d toState .onEnter :: hookTr
              ++ [Event.runExec d true],
            none⟩

/-- transition: throw when source or target is not a declared state,
else dispatch the exit run (fire and forget), await the enter run, and
start the target sub-machine if present. -/
def transition {T : Type} (m : FSM T) (fromState toState : String)
    (data : Option (T × T)) (snap : T × T) : StepOut (FSM T) T :=
  match lookupState m.states fromState, lookupState m.states toState with
  | some _, some o =>
      (processOnExit m fromState data).seq (fun m1 =>
        (processOnEnter m1 toState fromState snap).seq (fun m2 =>
          ⟨m2, if o.subStates then [Event.subStart toState] else [], none⟩))
  | _, _ =>
      ⟨m, [],
        some ("State " ++ fromState ++ " or " ++ toState ++ " not found")⟩

/-- processTransition: nothing while not running, dequeue one snapshot
(nothing when the queue is empty), evaluate it, and when a target is
selected reset the gate, transition, record the snapshot as the state
data and resolve the gate. -/
def processTransition {T : Type} (m : FSM T) : StepOut (FSM T) T :=
  if !m.isRunning then ⟨m, [], none⟩
  else
    match getStoreData m false with
    | (none, m1) => ⟨m1, [], none⟩
    | (some t, m1) =>
        let evalTr : List (Event T) := [Event.evalSnap t.1 t.2]
        match canTransit m1 m1.currentState t.1 t.2 with
        | none => ⟨m1, evalTr, none⟩
        | some target =>
            let r :=
              (transition m1 m1.currentState target m1.currentStateData
                  t).seq
                (fun m2 =>
                  ⟨{ m2 with currentStateData := some t },
                    [Event.gateResolve], none⟩)
            ⟨r.m, evalTr ++ Event.gateReset :: r.tr, r.err⟩

/-- The subscription callback installed by the constructor: when the
machine is running, capture the snapshot and process it.  The returned
promise of processTransition is not awaited by the caller, so a thrown
exception is swallowed here (unhandled rejection). -/
def onStoreChange {T : Type} (m : FSM T) : FSM T × List (Event T) :=
  if m.isRunning then
    let r := processTransition (addStoreData m)
    (r.m, r.tr)
  else
    (m, [])

/-- A committed store mutation (store contract): previous becomes the
old current, the updater produces the new current, and the subscribed
callback fires exactly once. -/
def commitMutation {T : Type} (m : FSM T) (f : T → T) :
    FSM T × List (Event T) :=
  let m1 := { m with storePrev := m.storeCur, storeCur := f m.storeCur }
  if m1.subscribed then onStoreChange m1 else (m1, [])

/-- update(): nothing when not running; stop the tracked execution when
the raw transitionStrategy field of the current state equals the static
Stop value; await the transition gate; commit the mutation. -/
def FSM.update {T : Type} (m : FSM T) (f : T → T) : StepOut (FSM T) T :=
  if !m.isRunning then ⟨m, [], none⟩
  else
    let stopTr : List (Event T) :=
      match lookupState m.states m.currentState with
      | some e =>
          if e.transitionStrategy.rawIsStop then
            [Event.stopExec m.currentExecutionId]
          else []
      | none => []
    let (m1, tr1) := commitMutation m f
    ⟨m1, stopTr ++ Event.awaitGate :: tr1, none⟩

/-- start(): set isRunning, throw when the initial state is unknown,
capture the initial snapshot, reset the gate, run the initial entry,
start the sub-machine, record the state data, resolve the gate and
process the queue once. -/
def FSM.start {T : Type} (m : FSM T) : StepOut (FSM T) T :=
  let m0 := { m with isRunning := true }
  match lookupState m0.states m0.currentState with
  | none =>
      ⟨m0, [], some ("Initial state " ++ m0.currentState ++ " not found")⟩
  | some t =>
      let m1 := addStoreData m0
      match getStoreData m1 false with
      | (none, m2) => ⟨m2, [Event.gateReset], none⟩
      | (some e, m2) =>
          let r :=
            (processOnEnter m2 m2.currentState "" e).seq (fun m3 =>
              let subTr : List (Event T) :=
                if t.subStates then [Event.subStart t.name] else []
              let m4 := { m3 with currentStateData := some e }
              let r2 := processTransition m4
              ⟨r2.m, subTr ++ Event.gateResolve :: r2.tr, r2.err⟩)
          ⟨r.m, Event.gateReset :: r.tr, r.err⟩

/-- stop(): clear isRunning; when the current state is declared, stop
the tracked execution, resolve the gate, dispatch the exit run, stop
the sub-machine and unsubscribe from the adapter. -/
def FSM.stop {T : Type} (m : FSM T) : StepOut (FSM T) T :=
  let m0 := { m with isRunning := false }
  match lookupState m0.states m0.currentState with
  | none => ⟨m0, [], none⟩
  | some t =>
      let r := processOnExit m0 m0.currentState m0.currentStateData
      let subTr : List (Event T) :=
        if t.subStates then [Event.subStop t.name] else []
      ⟨{ r.m with subscribed := false },
        Event.stopExec m0.currentExecutionId :: Event.gateResolve :: r.tr
          ++ subTr,
        r.err⟩

/-- Deliver a list of committed mutations to the machine in order. -/
def deliverAll {T : Type} (m : FSM T) :
    List (T → T) → FSM T × List (Event T)
  | [] => (m, [])
  | f :: fs =>
      let (m1, tr1) := commitMutation m f
      let (m2, tr2) := deliverAll m1 fs
      (m2, tr1 ++ tr2)

/-- The snapshots the store contract produces for a mutation sequence
starting from a given current value. -/
def expectedSnaps {T : Type} : T → List (T → T) → List (T × T)
  | _, [] => []
  | c, f :: fs => (f c, c) :: expectedSnaps (f c) fs

end Dist

namespace Src

/-- Machine instance state of the legacy variant (src/fsm/fsm.ts)
together with its bound store.  pendingUpdates holds thunks that
applyPendingUpdates shifts and discards without invoking, so only the
length of the queue is observable; it is modelled as that length. -/
structure FSM (T : Type) where
  name : String
  states : List (StateConfig T)
  currentState : String
  currentEnterExecutionId : Option Nat
  currentExitExecutionId : Option Nat
  isTransitioning : Bool
  isExecutingLifecycle : Bool
  pendingUpdates : Nat
  hooksOnEnter : Bool
  hooksOnExit : Bool
  storeCur : T
  storePrev : T
  nextId : Nat

/-- The state action field selected by a method key. -/
def methodActions {T : Type} (cfg : StateConfig T) :
    LMethod → Option StateActions
  | .onEnter => cfg.onEnter
  | .onExit => cfg.onExit

/-- Whether the global hook for a method is configured. -/
def hookFor {T : Type} (m : FSM T) : LMethod → Bool
  | .onEnter => m.hooksOnEnter
  | .onExit => m.hooksOnExit

/-- getTransitionStrategy: Wait when the field is unset, the result of
the function applied to the transition context when it is a function,
else the static value. -/
def getTransitionStrategy {T : Type} (m : FSM T) (state : StateConfig T)
    (toState : String) : TransitionStrategy :=
  match state.transitionStrategy with
  | .unset => .wait
  | .func f =>
      f { fromState := state.name, toState := toState,
          storeCur := m.storeCur, storePrev := m.storePrev }
  | .static s => s

/-- createStateMethod: throw for an unknown state; return no handle
when the state defines no actions for the method; else create an
execution and invoke the matching global hook if configured. -/
def createStateMethod {T : Type} (m : FSM T)
    (state fromState toState : String) (method : LMethod) :
    Except String (Option Nat × FSM T × List (Event T)) :=
  match lookupState m.states state with
  | none => .error ("State " ++ state ++ " not found")
  | some cfg =>
      match methodActions cfg method with
      | none => .ok (none, m, [])
      | some _ =>
          let id := m.nextId
          let hookTr : List (Event T) :=
            if hookFor m method then [Event.hook method fromState toState]
            else []
          .ok (some id, { m with nextId := id + 1 },
            Event.createExec id state method :: hookTr)

mutual

/-- checkTransitions: return for an unknown state, a state without
transitions, or while transitioning or executing a lifecycle; else run
the first-match loop over the transitions. -/
def checkTransitionsF {T : Type} : Nat → FSM T → StepOut (FSM T) T
  | 0, m => ⟨m, [], none⟩
  | fuel + 1, m =>
      match lookupState m.states m.currentState with
      | none => ⟨m, [], none⟩
      | some cs =>
          match cs.transitions with
          | none => ⟨m, [], none⟩
          | some ts =>
              if m.isTransitioning || m.isExecutingLifecycle then
                ⟨m, [], none⟩
              else checkLoopF fuel m cs ts

/-- The for-of loop of checkTransitions: on the first satisfied
condition, cancel the tracked enter execution when the resolved
strategy is Stop and a handle is tracked, then transition and break. -/
def checkLoopF {T : Type} :
    Nat → FSM T → StateConfig T → List (TransitionCfg T) →
      StepOut (FSM T) T
  | 0, m, _, _ => ⟨m, [], none⟩
  | _ + 1, m, _, [] => ⟨m, [], none⟩
  | fuel + 1, m, cs, t :: rest =>
      if t.condition m.storeCur m.storePrev then
        let pre : FSM T × List (Event T) :=
          match m.currentEnterExecutionId with
          | some id =>
              if getTransitionStrategy m cs t.toState = .stop then
                ({ m with
                    currentEnterExecutionId := none
                    isExecutingLifecycle := false },
                  [Event.stopExec (some id)])
              else (m, [])
          | none => (m, [])
        let r := transitionF fuel pre.1 t.toState
        ⟨r.m, pre.2 ++ r.tr, r.err⟩
      else checkLoopF fuel m cs rest

/-- transition: mark isTransitioning, run the try body, and in a
finally clause clear isTransitioning and re-check transitions (a body
exception propagates after the finally, an exception of the finally
replaces it). -/
def transitionF {T : Type} : Nat → FSM T → String → StepOut (FSM T) T
  | 0, m, _ => ⟨m, [], none⟩
  | fuel + 1, m, newName =>
      let m0 := { m with isTransitioning := true }
      let body := transitionBodyF fuel m0 newName
      let mf := { body.m with isTransitioning := false }
      let rf := checkTransitionsF fuel mf
      ⟨rf.m, body.tr ++ rf.tr,
        match rf.err with
        | some e => some e
        | none => body.err⟩

/-- The exit phase of the transition try body: create the onExit
execution (throwing for an unknown state), and when the state defines
exit actions, mark the tracking fields, run the execution without
awaiting completion, clear the tracking fields and drain pending
updates. -/
def exitPhaseF {T : Type} : Nat → FSM T → String → StepOut (FSM T) T
  | 0, m, _ => ⟨m, [], none⟩
  | fuel + 1, m0, fromS =>
      match createStateMethod m0 fromS fromS "" .onExit with
      | .error e => ⟨m0, [], some e⟩
      | .ok (oExit, m1, tr1) =>
          match oExit with
          | none => ⟨m1, tr1, none⟩
          | some exitId =>
              let m2 := { m1 with
                currentExitExecutionId := some exitId
                isExecutingLifecycle := true }
              let m3 := { m2 with
                currentExitExecutionId := none
                isExecutingLifecycle := false }
              let r4 := applyPendingUpdatesF fuel m3
              ⟨r4.m, tr1 ++ Event.runExec exitId false :: r4.tr, r4.err⟩

/-- The enter phase of the transition try body: create the onEnter
execution (throwing for an unknown state), and when the target defines
entry actions, mark the tracking fields, await the run, clear the
tracking fields and re-check transitions; finally start the target
sub-machine if present. -/
def enterPhaseF {T : Type} :
    Nat → FSM T → String → String → StateConfig T → StepOut (FSM T) T
  | 0, m, _, _, _ => ⟨m, [], none⟩
  | fuel + 1, mB, fromS, nn, ns =>
      match createStateMethod mB nn fromS nn .onEnter with
      | .error e => ⟨mB, [], some e⟩
      | .ok (oEnter, mC, trC) =>
          let afterEnter : StepOut (FSM T) T :=
            match oEnter with
            | none => ⟨mC, trC, none⟩
            | some enterId =>
                let mD1 := { mC with
                  currentEnterExecutionId := some enterId
                  isExecutingLifecycle := true }
                let mD := { mD1 with
                  currentEnterExecutionId := none
                  isExecutingLifecycle := false }
                let r5 := checkTransitionsF fuel mD
                ⟨r5.m, trC ++ Event.runExec enterId true :: r5.tr, r5.err⟩
          afterEnter.seq (fun mE =>
            ⟨mE, if ns.subStates then [Event.subStart ns.name] else [],
              none⟩)

/-- The try body of transition: throw when source or target is
unknown, run the exit phase (exit run not awaited for completion),
stop the source sub-machine, swap currentState, and run the enter
phase. -/
def transitionBodyF {T : Type} : Nat → FSM T → String → StepOut (FSM T) T
  | 0, m, _ => ⟨m, [], none⟩
  | fuel + 1, m0, newName =>
      match lookupState m0.states m0.currentState,
          lookupState m0.states newName with
      | some cs, some ns =>
          let fromS := m0.currentState
          (exitPhaseF fuel m0 fromS).seq (fun mA =>
            let subTr : List (Event T) :=
              if cs.subStates then [Event.subStop cs.name] else []
            let mB := { mA with currentState := newName }
            let r := enterPhaseF fuel mB fromS newName ns
            ⟨r.m, subTr ++ r.tr, r.err⟩)
      | _, _ =>
          ⟨m0, [],
            some ("Invalid transition from " ++ m0.currentState
              ++ " to " ++ newName)⟩

/-- applyPendingUpdates: while the queue is non-empty, shift one thunk
(discarding it) and re-check transitions. -/
def applyPendingUpdatesF {T : Type} : Nat → FSM T → StepOut (FSM T) T
  | 0, m => ⟨m, [], none⟩
  | fuel + 1, m =>
      if m.pendingUpdates = 0 then ⟨m, [], none⟩
      else
        let m1 := { m with pendingUpdates := m.pendingUpdates - 1 }
        (checkTransitionsF fuel m1).seq (fun m2 =>
          applyPendingUpdatesF fuel m2)

end

/-- The subscription callback installed by the legacy constructor:
return for an unknown state, a state without transitions or while
transitioning; while a lifecycle executes, a Stop strategy with a
tracked enter execution cancels it, clears the tracking fields and
checks transitions at once, and otherwise the update is queued; when
no lifecycle executes, check transitions directly. -/
def handleStoreChange {T : Type} (fuel : Nat) (m : FSM T) :
    StepOut (FSM T) T :=
  match lookupState m.states m.currentState with
  | none => ⟨m, [], none⟩
  | some cs =>
      match cs.transitions with
      | none => ⟨m, [], none⟩
      | some _ =>
          if m.isTransitioning then ⟨m, [], none⟩
          else if m.isExecutingLifecycle then
            match m.currentEnterExecutionId with
            | some id =>
                if getTransitionStrategy m cs "" = .stop then
                  let m1 := { m with
                    currentEnterExecutionId := none
                    isExecutingLifecycle := false }
                  let r := checkTransitionsF fuel m1
                  ⟨r.m, Event.stopExec (some id) :: r.tr, r.err⟩
                else
                  ⟨{ m with pendingUpdates := m.pendingUpdates + 1 },
                    [], none⟩
            | none =>
                ⟨{ m with pendingUpdates := m.pendingUpdates + 1 },
                  [], none⟩
          else checkTransitionsF fuel m

end Src

/-- Builder state (FSMBuilder): the config under construction plus the
chain and group registries.  Chains are opaque callbacks, so only the
names of states owning one are recorded; groups are opaque ordered
ids. -/
structure FSMBuilder (T : Type) where
  name : String
  initialState : String := ""
  states : List (StateConfig T) := []
  onEnterChains : List String := []
  onExitChains : List String := []
  onEnterGroups : List (String × List Nat) := []
  onExitGroups : List (String × List Nat) := []
  storeCur : T
  storePrev : T

namespace FSMBuilder

/-- validateInitialState: throw when unset or not a declared state. -/
def validateInitialState {T : Type} (b : FSMBuilder T) : Option String :=
  if b.initialState = "" then some "Initial state is not set!"
  else if (b.states.find? (fun s => s.name == b.initialState)).isSome then
    none
  else
    some ("State " ++ b.initialState
      ++ " cannot be initial state, because it does not exist!")

/-- validateTransitions: throw at the first transition whose target is
not a declared state. -/
def validateTransitions {T : Type} (states : List (StateConfig T)) :
    Option String :=
  states.findSome? (fun st =>
    match st.transitions with
    | none => none
    | some ts =>
        ts.findSome? (fun t =>
          if states.any (fun s2 => s2.name == t.toState) then none
          else
            some ("Cannot transit to " ++ t.toState ++ " from " ++ st.name
              ++ " because it does not exist!")))

/-- buildOnEnterActions: default to the empty group list, install a
registered chain, throw when a state has both a chain and groups, and
install registered groups. -/
def buildOnEnterActions {T : Type} (b : FSMBuilder T)
    (st : StateConfig T) : Except String (StateConfig T) :=
  let base := { st with onEnter := some (.groups []) }
  let chain := b.onEnterChains.contains st.name
  let withChain :=
    if chain then { base with onEnter := some .chain } else base
  match b.onEnterGroups.find? (fun p => p.1 == st.name) with
  | some g =>
      if chain then
        .error ("OnEnter actions for state " ++ st.name
          ++ " has both chains and groups!")
      else .ok { withChain with onEnter := some (.groups g.2) }
  | none => .ok withChain

/-- buildOnExitActions: the onExit counterpart of buildOnEnterActions. -/
def buildOnExitActions {T : Type} (b : FSMBuilder T)
    (st : StateConfig T) : Except String (StateConfig T) :=
  let base := { st with onExit := some (.groups []) }
  let chain := b.onExitChains.contains st.name
  let withChain :=
    if chain then { base with onExit := some .chain } else base
  match b.onExitGroups.find? (fun p => p.1 == st.name) with
  | some g =>
      if chain then
        .error ("OnExit actions for state " ++ st.name
          ++ " has both chains and groups!")
      else .ok { withChain with onExit := some (.groups g.2) }
  | none => .ok withChain

/-- The forEach over the configured states resolving actions. -/
def buildStates {T : Type} (b : FSMBuilder T) :
    List (StateConfig T) → Except String (List (StateConfig T))
  | [] => .ok []
  | st :: rest =>
      match buildOnEnterActions b st with
      | .error e => .error e
      | .ok st1 =>
          match buildOnExitActions b st1 with
          | .error e => .error e
          | .ok st2 =>
              match buildStates b rest with
              | .error e => .error e
              | .ok rs => .ok (st2 :: rs)

/-- build(): validate the initial state, validate the transitions,
resolve the per-state actions and only then construct the machine.  A
validation error aborts before any machine is produced. -/
def build {T : Type} (b : FSMBuilder T) : Except String (Dist.FSM T) :=
  match validateInitialState b with
  | some e => .error e
  | none =>
      match validateTransitions b.states with
      | some e => .error e
      | none =>
          match buildStates b b.states with
          | .error e => .error e
          | .ok sts =>
              .ok (Dist.FSM.ofConfig
                { name := b.name
                  initialState := b.initialState
                  states := sts
                  storeCur := b.storeCur
                  storePrev := b.storePrev })

end FSMBuilder

/-- Events a transition dispatch may emit: execution-engine create and
run calls, hook invocations and sub-machine delegation.  Stop calls,
gate operations and snapshot evaluations are never among them. -/
def dispatchEvent {T : Type} : Event T → Bool
  | .createExec _ _ _ => true
  | .runExec _ _ => true
  | .hook _ _ _ => true
  | .subStart _ => true
  | .subStop _ => true
  | _ => false

/-! ## Concrete machines used to instantiate the claims -/

/-- Transition list of the concrete state wA: go to B when the current
value is negative. -/
def wTs : List (TransitionCfg Int) :=
  [{ toState := "B", condition := fun c _ => decide (c < 0) }]

/-- Concrete state A: entry and exit actions, the wTs transitions and a
static Stop strategy. -/
def wA : StateConfig Int :=
  { name := "A", transitions := some wTs,
    onEnter := some (.groups []), onExit := some (.groups []),
    transitionStrategy := .static .stop }

/-- Concrete state B: entry actions only. -/
def wB : StateConfig Int :=
  { name := "B", transitions := some [], onEnter := some (.groups []) }

/-- Concrete state N: declared but with no actions at all. -/
def wN : StateConfig Int := { name := "N" }

/-- Concrete state F: a function-valued strategy that always returns
Stop. -/
def wF : StateConfig Int :=
  { name := "F", transitions := some [], onEnter := some (.groups []),
    transitionStrategy := .func (fun _ => .stop) }

/-- A legacy machine caught in the middle of an entry run of A (the
execution handle 7 is tracked, the lifecycle flag is set) when the
container holds -1 after a mutation from 1. -/
def wSrc : Src.FSM Int :=
  { name := "m", states := [wA, wB], currentState := "A",
    currentEnterExecutionId := some 7, currentExitExecutionId := none,
    isTransitioning := false, isExecutingLifecycle := true,
    pendingUpdates := 0, hooksOnEnter := false, hooksOnExit := false,
    storeCur := -1, storePrev := 1, nextId := 8 }

/-- A started latest-variant machine at rest in A with container value
-1 (previous 1) and an empty snapshot queue. -/
def wDistRun : Dist.FSM Int :=
  { name := "m", states := [wA, wB], currentState := "A",
    currentExecutionId := none, storeStates := [],
    currentStateData := none, isRunning := true, hooksOnEnter := false,
    hooksOnExit := false, storeCur := -1, storePrev := 1,
    subscribed := true, nextId := 0 }

/-- A started latest-variant machine at rest in A with container value
1: no transition condition of A holds on the unchanged data. -/
def wDist9 : Dist.FSM Int :=
  { name := "m", states := [wA, wB], currentState := "A",
    currentExecutionId := none, storeStates := [],
    currentStateData := none, isRunning := true, hooksOnEnter := false,
    hooksOnExit := false, storeCur := 1, storePrev := 0,
    subscribed := true, nextId := 0 }

/-- A started latest-variant machine in state F, whose strategy is a
function returning Stop, with execution 3 in flight. -/
def wDistF : Dist.FSM Int :=
  { name := "m", states := [wF], currentState := "F",
    currentExecutionId := some 3, storeStates := [],
    currentStateData := none, isRunning := true, hooksOnEnter := false,
    hooksOnExit := false, storeCur := 0, storePrev := 0,
    subscribed := true, nextId := 4 }

/-- A started latest-variant machine with both global hooks configured
and states A (actions on both methods), B and N (no actions). -/
def wDistH : Dist.FSM Int :=
  { name := "m", states := [wA, wB, wN], currentState := "A",
    currentExecutionId := none, storeStates := [],
    currentStateData := none, isRunning := true, hooksOnEnter := true,
    hooksOnExit := true, storeCur := 0, storePrev := 0,
    subscribed := true, nextId := 0 }

/-- A configuration whose initial state Z is not declared. -/
def c8cfg : Dist.FSMConfig Int :=
  { name := "m", initialState := "Z", states := [{ name := "A" }],
    storeCur := 0, storePrev := 0 }

/-- A builder whose initial state Z is not declared. -/
def c8bInit : FSMBuilder Int :=
  { name := "m", initialState := "Z",
    states := [{ name := "A", transitions := some [] }],
    storeCur := 0, storePrev := 0 }

/-- A builder with a valid initial state but a transition whose target
B is not declared. -/
def c8bTrans : FSMBuilder Int :=
  { name := "m", initialState := "A",
    states := [{ name := "A", transitions := some wTs }],
    storeCur := 0, storePrev := 0 }

/-- State A of the no-op-update counterexample: an always-true
transition to B. -/
def uC9A : StateConfig Int :=
  { name := "A",
    transitions := some [{ toState := "B", condition := fun _ _ => true }],
    onEnter := some (.groups []) }

/-- State B of the no-op-update counterexample. -/
def uC9B : StateConfig Int :=
  { name := "B", transitions := some [], onEnter := some (.groups []) }

/-- The no-op-update counterexample configuration: initial A, an
always-true condition to B. -/
def uCfg : Dist.FSMConfig Int :=
  { name := "m", initialState := "A", states := [uC9A, uC9B],
    storeCur := 0, storePrev := 0 }

/-! ## Lemmas about the shared first-match loop -/

theorem countStop_append {T : Type} (a b : List (Event T)) :
    countStop (a ++ b) = countStop a + countStop b := by
  simp [countStop, List.countP_append]

theorem firstTo_spec {T : Type} (c p : T) :
    ∀ (ts : List (TransitionCfg T)) (i : Nat) (hi : i < ts.length),
      (ts.get ⟨i, hi⟩).condition c p = true →
      (∀ j, (hj : j < ts.length) → j < i →
          (ts.get ⟨j, hj⟩).condition c p = false) →
      firstTo ts c p = some (ts.get ⟨i, hi⟩).toState
        ∧ evalCount ts c p = i + 1 := by
  intro ts
  induction ts with
  | nil =>
      intro i hi
      exact absurd hi (Nat.not_lt_zero i)
  | cons t rest ih =>
      intro i hi hsat hbef
      cases i with
      | zero =>
          simp only [List.get] at hsat
          simp [firstTo, evalCount, hsat]
      | succ n =>
          have h0 : t.condition c p = false := by
            have := hbef 0 (by omega) (by omega)
            simpa using this
          have hn : n < rest.length := by
            simpa using hi
          have hsat' : (rest.get ⟨n, hn⟩).condition c p = true := by
            simpa using hsat
          have hbef' : ∀ j, (hj : j < rest.length) → j < n →
              (rest.get ⟨j, hj⟩).condition c p = false := by
            intro j hj hjn
            have := hbef (j + 1) (by omega) (by omega)
            simpa using this
          have hr := ih n hn hsat' hbef'
          constructor
          · simp [firstTo, h0, hr.1]
          · simp [evalCount, h0, hr.2]

/-- Claim C2: for every state and every snapshot, transition conditions
are evaluated in declaration order, the first condition that evaluates
true selects the target, and no condition after the first satisfied
one is evaluated for that snapshot. -/
theorem fsm_c2 {T : Type} (m : Dist.FSM T) (stateName : String)
    (cur prev : T) (s : StateConfig T) (ts : List (TransitionCfg T))
    (i : Nat) (hi : i < ts.length)
    (hrun : m.isRunning = true)
    (hs : lookupState m.states stateName = some s)
    (hts : s.transitions = some ts)
    (hsat : (ts.get ⟨i, hi⟩).condition cur prev = true)
    (hbef : ∀ j, (hj : j < ts.length) → j < i →
        (ts.get ⟨j, hj⟩).condition cur prev = false) :
    Dist.canTransit m stateName cur prev = some ((ts.get ⟨i, hi⟩).toState)
      ∧ evalCount ts cur prev = i + 1 := by
  have h := firstTo_spec cur prev ts i hi hsat hbef
  unfold Dist.canTransit
  rw [hrun]
  simp [hs, hts, h.1, h.2]

/-- Claim C10: for every target name that is not a key of the state
table, the internal transition operation throws before running any exit
or entry actions, and the machine, including currentState, is left
unchanged. -/
theorem fsm_c10 {T : Type} (m : Dist.FSM T) (fromS toS : String)
    (d : Option (T × T)) (snap : T × T)
    (h : lookupState m.states toS = none) :
    (Dist.transition m fromS toS d snap).m = m
      ∧ (Dist.transition m fromS toS d snap).tr = []
      ∧ (Dist.transition m fromS toS d snap).err
          = some ("State " ++ fromS ++ " or " ++ toS ++ " not found") := by
  unfold Dist.transition
  cases hf : lookupState m.states fromS <;> rw [h] <;> simp

theorem dispatchEvent_not_stop {T : Type} (e : Event T)
    (h : dispatchEvent e = true) :
    (match e with | .stopExec _ => true | _ => false) = false := by
  cases e <;> simp [dispatchEvent] at h ⊢

theorem dispatchEvent_not_snap {T : Type} (e : Event T)
    (h : dispatchEvent e = true) :
    (match e with | .evalSnap c p => some (c, p) | _ => none)
      = (none : Option (T × T)) := by
  cases e <;> simp [dispatchEvent] at h ⊢

theorem Dist_processOnExit_spec {T : Type} (m : Dist.FSM T) (s : String)
    (d : Option (T × T)) :
    ((Dist.processOnExit m s d).m.states = m.states
      ∧ (Dist.processOnExit m s d).m.currentState = m.currentState
      ∧ (Dist.processOnExit m s d).m.currentExecutionId
          = m.currentExecutionId
      ∧ (Dist.processOnExit m s d).m.isRunning = m.isRunning
      ∧ (Dist.processOnExit m s d).m.subscribed = m.subscribed
      ∧ (Dist.processOnExit m s d).m.storeStates = m.storeStates
      ∧ (Dist.processOnExit m s d).m.storeCur = m.storeCur
      ∧ (Dist.processOnExit m s d).m.storePrev = m.storePrev)
    ∧ ∀ e ∈ (Dist.processOnExit m s d).tr, dispatchEvent e = true := by
  unfold Dist.processOnExit
  split
  · simp
  · split
    · simp
    · refine ⟨by simp, ?_⟩
      intro e he
      cases hb : m.hooksOnExit <;> simp [hb] at he <;>
        rcases he with rfl | rfl | rfl <;> rfl

theorem Dist_processOnEnter_spec {T : Type} (m : Dist.FSM T)
    (toS fromS : String) (snap : T × T) :
    ((Dist.processOnEnter m toS fromS snap).m.states = m.states
      ∧ (Dist.processOnEnter m toS fromS snap).m.isRunning = m.isRunning
      ∧ (Dist.processOnEnter m toS fromS snap).m.subscribed = m.subscribed
      ∧ (Dist.processOnEnter m toS fromS snap).m.storeStates
          = m.storeStates
      ∧ (Dist.processOnEnter m toS fromS snap).m.storeCur = m.storeCur
      ∧ (Dist.processOnEnter m toS fromS snap).m.storePrev = m.storePrev)
    ∧ ∀ e ∈ (Dist.processOnEnter m toS fromS snap).tr,
        dispatchEvent e = true := by
  unfold Dist.processOnEnter
  split
  · simp
  · split
    · simp
    · refine ⟨by simp, ?_⟩
      intro e he
      cases hb : m.hooksOnEnter <;> simp [hb] at he <;>
        rcases he with rfl | rfl | rfl <;> rfl

theorem Dist_transition_spec {T : Type} (m : Dist.FSM T)
    (fromS toS : String) (d : Option (T × T)) (snap : T × T) :
    ((Dist.transition m fromS toS d snap).m.states = m.states
      ∧ (Dist.transition m fromS toS d snap).m.isRunning = m.isRunning
      ∧ (Dist.transition m fromS toS d snap).m.subscribed = m.subscribed
      ∧ (Dist.transition m fromS toS d snap).m.storeStates = m.storeStates
      ∧ (Dist.transition m fromS toS d snap).m.storeCur = m.storeCur
      ∧ (Dist.transition m fromS toS d snap).m.storePrev = m.storePrev)
    ∧ ∀ e ∈ (Dist.transition m fromS toS d snap).tr,
        dispatchEvent e = true := by
  obtain ⟨⟨hx1, hx2, hx3, hx4, hx5, hx6, hx7, hx8⟩, hxe⟩ :=
    Dist_processOnExit_spec m fromS d
  obtain ⟨⟨he1, he2, he3, he4, he5, he6⟩, hee⟩ :=
    Dist_processOnEnter_spec (Dist.processOnExit m fromS d).m toS
      fromS snap
  unfold Dist.transition
  split
  case _ n o hf ht =>
    cases herr : (Dist.processOnExit m fromS d).err with
    | some e0 =>
        simp only [StepOut.seq, herr]
        exact ⟨⟨hx1, hx4, hx5, hx6, hx7, hx8⟩, hxe⟩
    | none =>
        cases herr2 : (Dist.processOnEnter (Dist.processOnExit m fromS d).m
            toS fromS snap).err with
        | some e1 =>
            simp only [StepOut.seq, herr, herr2]
            refine ⟨⟨?_, ?_, ?_, ?_, ?_, ?_⟩, ?_⟩
            · exact he1.trans hx1
            · exact he2.trans hx4
            · exact he3.trans hx5
            · exact he4.trans hx6
            · exact he5.trans hx7
            · exact he6.trans hx8
            · intro e he
              rcases List.mem_append.mp he with h | h
              · exact hxe e h
              · exact hee e h
        | none =>
            simp only [StepOut.seq, herr, herr2]
            refine ⟨⟨?_, ?_, ?_, ?_, ?_, ?_⟩, ?_⟩
            · exact he1.trans hx1
            · exact he2.trans hx4
            · exact he3.trans hx5
            · exact he4.trans hx6
            · exact he5.trans hx7
            · exact he6.trans hx8
            · intro e he
              rcases List.mem_append.mp he with h | h
              · exact hxe e h
              · rcases List.mem_append.mp h with h2 | h2
                · exact hee e h2
                · by_cases hsub : o.subStates = true <;>
                    simp [hsub] at h2
                  subst h2; rfl
  case _ =>
    exact ⟨⟨rfl, rfl, rfl, rfl, rfl, rfl⟩, by simp⟩

theorem countStop_of_dispatch {T : Type} (tr : List (Event T))
    (h : ∀ e ∈ tr, dispatchEvent e = true) : countStop tr = 0 := by
  refine List.countP_eq_zero.mpr ?_
  intro e he
  have hd := h e he
  cases e <;> simp [dispatchEvent] at hd ⊢

theorem snaps_of_dispatch {T : Type} (tr : List (Event T))
    (h : ∀ e ∈ tr, dispatchEvent e = true) : evalSnaps tr = [] := by
  refine List.filterMap_eq_nil_iff.mpr ?_
  intro e he
  have hd := h e he
  cases e <;> simp [dispatchEvent] at hd ⊢

theorem Dist_processTransition_cons {T : Type} (m : Dist.FSM T)
    (x : T × T) (rest : List (T × T))
    (hrun : m.isRunning = true) (hq : m.storeStates = x :: rest) :
    ((Dist.processTransition m).m.states = m.states
      ∧ (Dist.processTransition m).m.isRunning = true
      ∧ (Dist.processTransition m).m.subscribed = m.subscribed
      ∧ (Dist.processTransition m).m.storeStates = rest
      ∧ (Dist.processTransition m).m.storeCur = m.storeCur
      ∧ (Dist.processTransition m).m.storePrev = m.storePrev)
    ∧ evalSnaps (Dist.processTransition m).tr = [x] := by
  unfold Dist.processTransition Dist.getStoreData
  rw [hrun]
  simp only [Bool.not_true, Bool.false_eq_true, if_false, hq]
  split
  case _ hct => simp [evalSnaps]
  case _ target hct =>
    obtain ⟨⟨t1, t2, t3, t4, t5, t6⟩, te⟩ :=
      Dist_transition_spec
        { m with storeStates := rest, isRunning := true }
        m.currentState target m.currentStateData x
    have hsnil :
        evalSnaps (Dist.transition
          { m with storeStates := rest, isRunning := true }
          m.currentState target m.currentStateData x).tr = [] :=
      snaps_of_dispatch _ te
    cases herr : (Dist.transition
        { m with storeStates := rest, isRunning := true }
        m.currentState target m.currentStateData x).err with
    | some e0 =>
        simp only [StepOut.seq, herr]
        refine ⟨⟨t1, t2, t3, t4, t5, t6⟩, ?_⟩
        simp only [evalSnaps, List.filterMap_cons, List.filterMap_append]
        simpa [evalSnaps] using hsnil
    | none =>
        simp only [StepOut.seq, herr]
        refine ⟨⟨t1, t2, t3, t4, t5, t6⟩, ?_⟩
        simp only [evalSnaps, List.filterMap_cons, List.filterMap_append]
        simpa [evalSnaps] using hsnil

theorem Dist_commit_step {T : Type} (m : Dist.FSM T) (f : T → T)
    (hrun : m.isRunning = true) (hsub : m.subscribed = true)
    (hq : m.storeStates = []) :
    ((Dist.commitMutation m f).1.states = m.states
      ∧ (Dist.commitMutation m f).1.isRunning = true
      ∧ (Dist.commitMutation m f).1.subscribed = true
      ∧ (Dist.commitMutation m f).1.storeStates = []
      ∧ (Dist.commitMutation m f).1.storeCur = f m.storeCur)
    ∧ evalSnaps (Dist.commitMutation m f).2
        = [(f m.storeCur, m.storeCur)] := by
  obtain ⟨⟨p1, p2, p3, p4, p5, p6⟩, psnap⟩ :=
    Dist_processTransition_cons
      { m with
          storePrev := m.storeCur
          storeCur := f m.storeCur
          storeStates := [(f m.storeCur, m.storeCur)]
          isRunning := true
          subscribed := true }
      (f m.storeCur, m.storeCur) [] rfl rfl
  unfold Dist.commitMutation Dist.onStoreChange Dist.addStoreData
  simp only [hsub, hrun, hq, if_true, List.nil_append]
  exact ⟨⟨p1, p2, p3, p4, p5⟩, psnap⟩

theorem Dist_deliverAll_run {T : Type} :
    ∀ (fs : List (T → T)) (m : Dist.FSM T),
      m.isRunning = true → m.subscribed = true → m.storeStates = [] →
      evalSnaps (Dist.deliverAll m fs).2 = Dist.expectedSnaps m.storeCur fs
        ∧ (Dist.deliverAll m fs).1.storeStates = []
        ∧ (Dist.deliverAll m fs).1.isRunning = true
        ∧ (Dist.deliverAll m fs).1.subscribed = true := by
  intro fs
  induction fs with
  | nil =>
      intro m h1 h2 h3
      simp [Dist.deliverAll, Dist.expectedSnaps, evalSnaps, h3, h1, h2]
  | cons f fs ih =>
      intro m h1 h2 h3
      obtain ⟨⟨c1, c2, c3, c4, c5⟩, csnap⟩ := Dist_commit_step m f h1 h2 h3
      obtain ⟨i1, i2, i3, i4⟩ :=
        ih (Dist.commitMutation m f).1 c2 c3 c4
      unfold Dist.deliverAll
      refine ⟨?_, ?_, ?_, ?_⟩
      · simp only [evalSnaps, List.filterMap_append] at *
        rw [csnap, i1, c5]
        simp [Dist.expectedSnaps]
      · exact i2
      · exact i3
      · exact i4

/-- Claim C3: mutations delivered to a running machine are pushed at
the back of the snapshot queue in arrival order, drained from the
front (FIFO), and every one of them is submitted for evaluation
against the transition conditions in that order, leaving the queue
empty: none is silently discarded. -/
theorem fsm_c3 {T : Type} (m : Dist.FSM T) (fs : List (T → T))
    (hrun : m.isRunning = true) (hsub : m.subscribed = true)
    (hq : m.storeStates = []) :
    evalSnaps (Dist.deliverAll m fs).2 = Dist.expectedSnaps m.storeCur fs
      ∧ (Dist.deliverAll m fs).1.storeStates = [] := by
  obtain ⟨h1, h2, _, _⟩ := Dist_deliverAll_run fs m hrun hsub hq
  exact ⟨h1, h2⟩

theorem Dist_commit_stopped {T : Type} (m : Dist.FSM T) (f : T → T)
    (h : m.isRunning = false) :
    (Dist.commitMutation m f).1.currentState = m.currentState
      ∧ (Dist.commitMutation m f).1.isRunning = false
      ∧ (Dist.commitMutation m f).2 = [] := by
  unfold Dist.commitMutation Dist.onStoreChange
  cases hs : m.subscribed <;> simp [hs, h]

theorem Dist_stop_not_running {T : Type} (m : Dist.FSM T) :
    (Dist.FSM.stop m).m.isRunning = false := by
  unfold Dist.FSM.stop
  dsimp only
  split
  · rfl
  · obtain ⟨⟨_, _, _, h4, _, _, _, _⟩, _⟩ :=
      Dist_processOnExit_spec { m with isRunning := false }
        ({ m with isRunning := false } : Dist.FSM T).currentState
        ({ m with isRunning := false } : Dist.FSM T).currentStateData
    simpa using h4

theorem Dist_deliverAll_stopped {T : Type} :
    ∀ (fs : List (T → T)) (m : Dist.FSM T), m.isRunning = false →
      (Dist.deliverAll m fs).1.currentState = m.currentState
        ∧ (Dist.deliverAll m fs).2 = [] := by
  intro fs
  induction fs with
  | nil => intro m h; exact ⟨rfl, rfl⟩
  | cons f fs ih =>
      intro m h
      obtain ⟨c1, c2, c3⟩ := Dist_commit_stopped m f h
      obtain ⟨i1, i2⟩ := ih (Dist.commitMutation m f).1 c2
      unfold Dist.deliverAll
      exact ⟨i1.trans c1, by simp [c3, i2]⟩

/-- Claim C7: after stop() resolves and the machine is not restarted,
delivering any sequence of container mutations leaves currentState
unchanged and dispatches no further lifecycle run: the trace of the
deliveries is empty, because isRunning is cleared and the subscription
is removed. -/
theorem fsm_c7 {T : Type} (m : Dist.FSM T) (fs : List (T → T)) :
    (Dist.deliverAll (Dist.FSM.stop m).m fs).1.currentState
        = (Dist.FSM.stop m).m.currentState
      ∧ (Dist.deliverAll (Dist.FSM.stop m).m fs).2 = [] :=
  Dist_deliverAll_stopped fs (Dist.FSM.stop m).m (Dist_stop_not_running m)

theorem firstTo_none {T : Type} (c p : T) :
    ∀ ts : List (TransitionCfg T),
      (∀ t ∈ ts, t.condition c p = false) → firstTo ts c p = none := by
  intro ts
  induction ts with
  | nil => intro _; rfl
  | cons t rest ih =>
      intro h
      have h0 := h t (by simp)
      simp [firstTo, h0]
      exact ih (fun t2 ht2 => h t2 (by simp [ht2]))

theorem Dist_processTransition_no_stop {T : Type} (m : Dist.FSM T) :
    countStop (Dist.processTransition m).tr = 0 := by
  unfold Dist.processTransition
  split
  · rfl
  · split
    case _ m1 heq => rfl
    case _ t m1 heq =>
      split
      case _ hct => simp [countStop]
      case _ target hct =>
        obtain ⟨_, te⟩ :=
          Dist_transition_spec m1 m1.currentState target
            m1.currentStateData t
        have h0 : countStop (Dist.transition m1 m1.currentState target
            m1.currentStateData t).tr = 0 := countStop_of_dispatch _ te
        cases herr : (Dist.transition m1 m1.currentState target
            m1.currentStateData t).err with
        | some e0 =>
            simp only [StepOut.seq, herr]
            simpa [countStop, List.countP_append, List.countP_cons]
              using h0
        | none =>
            simp only [StepOut.seq, herr]
            simpa [countStop, List.countP_append, List.countP_cons]
              using h0

theorem Dist_commit_no_stop {T : Type} (m : Dist.FSM T) (f : T → T) :
    countStop (Dist.commitMutation m f).2 = 0 := by
  unfold Dist.commitMutation Dist.onStoreChange
  dsimp only
  split
  · split
    · exact Dist_processTransition_no_stop _
    · rfl
  · rfl

/-- Claim C5 (amended): the legacy resolver getTransitionStrategy
returns Wait when transitionStrategy is unset, the value itself when
it is static, and the result of the function applied to the
{from, to, store} context when it is a function; in the latest
variant, however, update() compares the raw field with the static
Stop value, so a function-valued strategy — whatever it returns —
never triggers the cancellation there. -/
theorem fsm_c5_amended {T : Type} :
    (∀ (m : Src.FSM T) (st : StateConfig T) (toS : String),
        st.transitionStrategy = .unset →
        Src.getTransitionStrategy m st toS = .wait)
    ∧ (∀ (m : Src.FSM T) (st : StateConfig T) (toS : String)
        (s : TransitionStrategy), st.transitionStrategy = .static s →
        Src.getTransitionStrategy m st toS = s)
    ∧ (∀ (m : Src.FSM T) (st : StateConfig T) (toS : String)
        (g : StrategyCtx T → TransitionStrategy),
        st.transitionStrategy = .func g →
        Src.getTransitionStrategy m st toS
          = g ⟨st.name, toS, m.storeCur, m.storePrev⟩)
    ∧ (∀ (d : Dist.FSM T) (st : StateConfig T)
        (g : StrategyCtx T → TransitionStrategy) (f : T → T),
        lookupState d.states d.currentState = some st →
        st.transitionStrategy = .func g →
        countStop (Dist.FSM.update d f).tr = 0) := by
  refine ⟨?_, ?_, ?_, ?_⟩
  · intro m st toS h
    unfold Src.getTransitionStrategy
    rw [h]
  · intro m st toS s h
    unfold Src.getTransitionStrategy
    rw [h]
  · intro m st toS g h
    unfold Src.getTransitionStrategy
    rw [h]
  · intro d st g f hlook hstrat
    unfold Dist.FSM.update
    split
    · rfl
    · dsimp only
      rw [hlook]
      have h0 := Dist_commit_no_stop d f
      simp only [countStop] at h0
      simp [countStop, List.countP_append, List.countP_cons, hstrat,
        StrategySpec.rawIsStop, h0]

/-- Claim C9 (amended): update() with a no-op updater on a running,
quiescent machine awaits the transition gate exactly once and, when no
transition condition of the current state holds on the unchanged data,
fires no transition: no execution is created, no transition gate reset
occurs and currentState is unchanged.  (Whether a transition fires
depends only on the conditions: a condition that holds on the
unchanged snapshot does fire — see the counterexample.) -/
theorem fsm_c9_amended {T : Type} (m : Dist.FSM T) (f : T → T)
    (s : StateConfig T) (ts : List (TransitionCfg T))
    (hrun : m.isRunning = true) (hsub : m.subscribed = true)
    (hq : m.storeStates = [])
    (hs : lookupState m.states m.currentState = some s)
    (hts : s.transitions = some ts)
    (hnoop : f m.storeCur = m.storeCur)
    (hfalse : ∀ t ∈ ts, t.condition m.storeCur m.storeCur = false) :
    (Dist.FSM.update m f).m.currentState = m.currentState
      ∧ countCreate (Dist.FSM.update m f).tr = 0
      ∧ countGateReset (Dist.FSM.update m f).tr = 0
      ∧ countAwaitGate (Dist.FSM.update m f).tr = 1 := by
  have hct : Dist.canTransit
      { m with
          storePrev := m.storeCur
          storeCur := f m.storeCur
          storeStates := []
          isRunning := true
          subscribed := true }
      m.currentState (f m.storeCur) m.storeCur = none := by
    unfold Dist.canTransit
    rw [hnoop]
    simp [hs, hts, firstTo_none m.storeCur m.storeCur ts hfalse]
  unfold Dist.FSM.update
  rw [hrun]
  dsimp only
  unfold Dist.commitMutation Dist.onStoreChange Dist.addStoreData
    Dist.processTransition Dist.getStoreData
  simp only [hsub, hrun, hq, if_true, List.nil_append, Bool.not_true,
    Bool.false_eq_true, if_false]
  rw [hct, hs]
  cases hraw : s.transitionStrategy.rawIsStop <;>
    simp [hraw, countCreate, countGateReset, countAwaitGate,
      List.countP_cons, List.countP_append]

/-- Claim C4 (amended): during a transition the exit run of the source
state is dispatched with awaitCompletion false before the target entry
run begins, but its execution handle is a local that is never stored
on the machine: the tracked currentExecutionId is the entry handle,
and a later stop() cancels that entry handle, not the exit one. -/
theorem fsm_c4_amended {T : Type} (m : Dist.FSM T) (fromS toS : String)
    (d : Option (T × T)) (snap : T × T) (n o : StateConfig T)
    (ax ae : StateActions)
    (hf : lookupState m.states fromS = some n)
    (ht : lookupState m.states toS = some o)
    (hx : n.onExit = some ax)
    (he : o.onEnter = some ae)
    (hhx : m.hooksOnExit = false) (hhe : m.hooksOnEnter = false) :
    (Dist.transition m fromS toS d snap).tr
      = [Event.createExec m.nextId fromS .onExit,
         Event.runExec m.nextId false,
         Event.createExec (m.nextId + 1) toS .onEnter,
         Event.runExec (m.nextId + 1) true]
        ++ (if o.subStates then [Event.subStart toS] else [])
    ∧ (Dist.transition m fromS toS d snap).m.currentExecutionId
        = some (m.nextId + 1)
    ∧ (Dist.FSM.stop (Dist.transition m fromS toS d snap).m).tr.head?
        = some (Event.stopExec (some (m.nextId + 1))) := by
  unfold Dist.FSM.stop Dist.transition Dist.processOnExit
    Dist.processOnEnter StepOut.seq
  simp [hf, ht, hx, he, hhx, hhe]

/-- Claim C6 (amended): when a state defines actions for a method, the
matching global hook is invoked synchronously with the lifecycle
context after the execution is created and before the engine runs it;
when the state leaves the action field for that method unset, the
dispatch is a no-op and the hook is not invoked either, so hooks do
not observe transitions into or out of such states. -/
theorem fsm_c6_amended {T : Type} :
    (∀ (m : Dist.FSM T) (toS fromS : String) (snap : T × T)
        (s : StateConfig T),
        lookupState m.states toS = some s → s.onEnter = none →
        (Dist.processOnEnter m toS fromS snap).tr = [])
    ∧ (∀ (m : Dist.FSM T) (toS fromS : String) (snap : T × T)
        (s : StateConfig T) (a : StateActions),
        lookupState m.states toS = some s → s.onEnter = some a →
        m.hooksOnEnter = true →
        (Dist.processOnEnter m toS fromS snap).tr
          = [Event.createExec m.nextId toS .onEnter,
             Event.hook .onEnter fromS toS,
             Event.runExec m.nextId true])
    ∧ (∀ (m : Dist.FSM T) (sn : String) (d : Option (T × T))
        (s : StateConfig T),
        lookupState m.states sn = some s → s.onExit = none →
        (Dist.processOnExit m sn d).tr = [])
    ∧ (∀ (m : Dist.FSM T) (sn : String) (d : Option (T × T))
        (s : StateConfig T) (a : StateActions),
        lookupState m.states sn = some s → s.onExit = some a →
        m.hooksOnExit = true →
        (Dist.processOnExit m sn d).tr
          = [Event.createExec m.nextId sn .onExit,
             Event.hook .onExit sn "",
             Event.runExec m.nextId false]) := by
  refine ⟨?_, ?_, ?_, ?_⟩
  · intro m toS fromS snap s h1 h2
    unfold Dist.processOnEnter
    simp [h1, h2]
  · intro m toS fromS snap s a h1 h2 h3
    unfold Dist.processOnEnter
    simp [h1, h2, h3]
  · intro m sn d s h1 h2
    unfold Dist.processOnExit
    simp [h1, h2]
  · intro m sn d s a h1 h2 h3
    unfold Dist.processOnExit
    simp [h1, h2, h3]

theorem countStop_cons {T : Type} (e : Event T) (tr : List (Event T)) :
    countStop (e :: tr) = countStop tr
      + (if (match e with | Event.stopExec _ => true | _ => false)
          then 1 else 0) := by
  simp [countStop, List.countP_cons]

theorem Src_createStateMethod_spec {T : Type} (m : Src.FSM T)
    (st fromS toS : String) (meth : LMethod) (o : Option Nat)
    (m' : Src.FSM T) (tr : List (Event T))
    (h : Src.createStateMethod m st fromS toS meth = .ok (o, m', tr)) :
    countStop tr = 0
      ∧ m'.currentEnterExecutionId = m.currentEnterExecutionId := by
  unfold Src.createStateMethod at h
  split at h
  · exact absurd h (by simp)
  · split at h
    · simp only [Except.ok.injEq, Prod.mk.injEq] at h
      obtain ⟨h1, h2, h3⟩ := h
      subst h2; subst h3
      exact ⟨rfl, rfl⟩
    · simp only [Except.ok.injEq, Prod.mk.injEq] at h
      obtain ⟨h1, h2, h3⟩ := h
      subst h2; subst h3
      refine ⟨?_, rfl⟩
      cases hb : Src.hookFor m meth <;>
        simp [hb, countStop, List.countP_cons]

theorem Src_noStop_inv {T : Type} : ∀ fuel : Nat,
    (∀ m : Src.FSM T, m.currentEnterExecutionId = none →
      countStop (Src.checkTransitionsF fuel m).tr = 0
        ∧ (Src.checkTransitionsF fuel m).m.currentEnterExecutionId = none)
    ∧ (∀ (m : Src.FSM T) (cs : StateConfig T)
        (ts : List (TransitionCfg T)),
        m.currentEnterExecutionId = none →
        countStop (Src.checkLoopF fuel m cs ts).tr = 0
          ∧ (Src.checkLoopF fuel m cs ts).m.currentEnterExecutionId
              = none)
    ∧ (∀ (m : Src.FSM T) (nn : String),
        m.currentEnterExecutionId = none →
        countStop (Src.transitionF fuel m nn).tr = 0
          ∧ (Src.transitionF fuel m nn).m.currentEnterExecutionId = none)
    ∧ (∀ (m : Src.FSM T) (nn : String),
        m.currentEnterExecutionId = none →
        countStop (Src.transitionBodyF fuel m nn).tr = 0
          ∧ (Src.transitionBodyF fuel m nn).m.currentEnterExecutionId
              = none)
    ∧ (∀ (m : Src.FSM T) (fromS : String),
        m.currentEnterExecutionId = none →
        countStop (Src.exitPhaseF fuel m fromS).tr = 0
          ∧ (Src.exitPhaseF fuel m fromS).m.currentEnterExecutionId
              = none)
    ∧ (∀ (m : Src.FSM T) (fromS nn : String) (ns : StateConfig T),
        m.currentEnterExecutionId = none →
        countStop (Src.enterPhaseF fuel m fromS nn ns).tr = 0
          ∧ (Src.enterPhaseF fuel m fromS nn
              ns).m.currentEnterExecutionId = none)
    ∧ (∀ m : Src.FSM T, m.currentEnterExecutionId = none →
        countStop (Src.applyPendingUpdatesF fuel m).tr = 0
          ∧ (Src.applyPendingUpdatesF fuel m).m.currentEnterExecutionId
              = none) := by
  intro fuel
  induction fuel with
  | zero =>
      refine ⟨?_, ?_, ?_, ?_, ?_, ?_, ?_⟩ <;> intro m <;>
        first
          | (intro h; exact ⟨rfl, h⟩)
          | (intro cs ts h; exact ⟨rfl, h⟩)
          | (intro nn h; exact ⟨rfl, h⟩)
          | (intro fromS nn ns h; exact ⟨rfl, h⟩)
  | succ f ih =>
      obtain ⟨ihC, ihL, ihT, ihB, ihX, ihE, ihA⟩ := ih
      refine ⟨?_, ?_, ?_, ?_, ?_, ?_, ?_⟩
      · -- checkTransitionsF
        intro m h
        unfold Src.checkTransitionsF
        split
        · exact ⟨rfl, h⟩
        · split
          · exact ⟨rfl, h⟩
          · split
            · exact ⟨rfl, h⟩
            · exact ihL m _ _ h
      · -- checkLoopF
        intro m cs ts h
        match ts with
        | [] =>
            unfold Src.checkLoopF
            exact ⟨rfl, h⟩
        | t :: rest =>
            unfold Src.checkLoopF
            dsimp only
            split
            · rw [h]
              dsimp only
              obtain ⟨r1, r2⟩ := ihT m t.toState h
              exact ⟨by simpa [countStop] using r1, r2⟩
            · exact ihL m cs rest h
      · -- transitionF
        intro m nn h
        unfold Src.transitionF
        dsimp only
        obtain ⟨b1, b2⟩ :=
          ihB { m with isTransitioning := true } nn (by simpa using h)
        refine ⟨?_, ?_⟩
        · rw [countStop_append, b1]
          simpa using
            (ihC { (Src.transitionBodyF f
                { m with isTransitioning := true } nn).m with
                isTransitioning := false } (by simpa using b2)).1
        · simpa using
            (ihC { (Src.transitionBodyF f
                { m with isTransitioning := true } nn).m with
                isTransitioning := false } (by simpa using b2)).2
      · -- transitionBodyF
        intro m nn h
        unfold Src.transitionBodyF
        split
        case _ cs ns hcs hns =>
          dsimp only
          obtain ⟨x1, x2⟩ := ihX m m.currentState h
          unfold StepOut.seq
          split
          case _ herr => exact ⟨x1, x2⟩
          case _ herr =>
            dsimp only
            obtain ⟨e1, e2⟩ :=
              ihE { (Src.exitPhaseF f m m.currentState).m with
                currentState := nn } m.currentState nn ns
                (by simpa using x2)
            refine ⟨?_, by simpa using e2⟩
            rw [countStop_append, x1, countStop_append, e1]
            cases hsub : cs.subStates <;> simp [hsub, countStop]
        case _ => exact ⟨rfl, h⟩
      · -- exitPhaseF
        intro m fromS h
        unfold Src.exitPhaseF
        split
        case _ e herr => exact ⟨rfl, h⟩
        case _ oExit m1 tr1 hok =>
          obtain ⟨k1, k2⟩ :=
            Src_createStateMethod_spec _ _ _ _ _ _ _ _ hok
          split
          case _ => exact ⟨k1, k2.trans h⟩
          case _ exitId =>
            dsimp only
            obtain ⟨a1, a2⟩ := ihA
              { m1 with
                  currentExitExecutionId := none
                  isExecutingLifecycle := false }
              (by simpa using k2.trans h)
            refine ⟨?_, by simpa using a2⟩
            rw [countStop_append, k1, countStop_cons]
            simp [a1]
      · -- enterPhaseF
        intro m fromS nn ns h
        unfold Src.enterPhaseF
        split
        case _ e herr => exact ⟨rfl, h⟩
        case _ oEnter mC trC hok =>
          obtain ⟨k1, k2⟩ :=
            Src_createStateMethod_spec _ _ _ _ _ _ _ _ hok
          dsimp only
          have hafter : ∀ r : StepOut (Src.FSM T) T,
              countStop r.tr = 0 → r.m.currentEnterExecutionId = none →
              countStop (r.seq (fun mE =>
                ⟨mE, if ns.subStates then [Event.subStart ns.name]
                  else [], none⟩)).tr = 0
              ∧ (r.seq (fun mE =>
                ⟨mE, if ns.subStates then [Event.subStart ns.name]
                  else [], none⟩)).m.currentEnterExecutionId = none := by
            intro r hr1 hr2
            unfold StepOut.seq
            split
            · exact ⟨hr1, hr2⟩
            · refine ⟨?_, hr2⟩
              rw [countStop_append, hr1]
              cases hsub : ns.subStates <;> simp [hsub, countStop]
          split
          case _ =>
            exact hafter _ k1 (k2.trans h)
          case _ enterId =>
            obtain ⟨c1, c2⟩ := ihC
              { mC with
                  currentEnterExecutionId := none
                  isExecutingLifecycle := false }
              (by simp)
            refine hafter _ ?_ (by simpa using c2)
            rw [countStop_append, k1, countStop_cons]
            simp [c1]
      · -- applyPendingUpdatesF
        intro m h
        unfold Src.applyPendingUpdatesF
        split
        · exact ⟨rfl, h⟩
        · dsimp only
          obtain ⟨c1, c2⟩ := ihC
            { m with pendingUpdates := m.pendingUpdates - 1 }
            (by simpa using h)
          unfold StepOut.seq
          split
          case _ herr => exact ⟨c1, c2⟩
          case _ herr =>
            dsimp only
            obtain ⟨a1, a2⟩ := ihA
              (Src.checkTransitionsF f
                { m with pendingUpdates := m.pendingUpdates - 1 }).m c2
            refine ⟨?_, a2⟩
            rw [countStop_append]
            omega

/-- Claim C1: when a mutation reaches a machine whose active state
resolves to the Stop strategy while a lifecycle run is executing (and
no transition is in progress), the subscription handler cancels the
running execution via the execution engine exactly once — the stop
call is the first event of the trace and no further stop call occurs —
after clearing the running execution id and the isExecutingLifecycle
flag, and only then drains the queue, so every exit and entry dispatch
of the new state comes after the cancellation. -/
theorem fsm_c1 {T : Type} (fuel : Nat) (m : Src.FSM T)
    (cs : StateConfig T) (ts : List (TransitionCfg T)) (eid : Nat)
    (hcs : lookupState m.states m.currentState = some cs)
    (hts : cs.transitions = some ts)
    (hnt : m.isTransitioning = false)
    (hex : m.isExecutingLifecycle = true)
    (hstrat : Src.getTransitionStrategy m cs "" = .stop)
    (hid : m.currentEnterExecutionId = some eid) :
    (Src.handleStoreChange fuel m).tr
        = Event.stopExec (some eid)
          :: (Src.checkTransitionsF fuel
              { m with
                  currentEnterExecutionId := none
                  isExecutingLifecycle := false }).tr
      ∧ countStop (Src.checkTransitionsF fuel
          { m with
              currentEnterExecutionId := none
              isExecutingLifecycle := false }).tr = 0
      ∧ (Src.handleStoreChange fuel m).m.currentEnterExecutionId
          = none := by
  obtain ⟨hinv1, hinv2⟩ := (Src_noStop_inv (T := T) fuel).1
    { m with
        currentEnterExecutionId := none
        isExecutingLifecycle := false
        isTransitioning := false } rfl
  unfold Src.handleStoreChange
  simp only [hcs, hts, hnt, hex, hid, hstrat]
  simp only [Bool.false_eq_true, if_false, if_true]
  refine ⟨?_, ?_, ?_⟩
  · trivial
  · exact hinv1
  · exact hinv2

/-- Claim C8 (amended): building through FSMBuilder.build fails with
an error, before any machine is constructed, whenever the configured
initialState is not a declared state or some transition target is
undeclared; the direct FSM constructor, by contrast, performs no
validation — it always returns a machine whose currentState is the
configured initial state, and an undeclared initial state is detected
only when start() runs. -/
theorem fsm_c8_amended {T : Type} (b : FSMBuilder T) :
    (lookupState b.states b.initialState = none →
      ∃ e, FSMBuilder.build b = Except.error e)
    ∧ (∀ (st : StateConfig T) (ts : List (TransitionCfg T))
        (tc : TransitionCfg T),
        st ∈ b.states → st.transitions = some ts → tc ∈ ts →
        b.states.any (fun s2 => s2.name == tc.toState) = false →
        ∃ e, FSMBuilder.build b = Except.error e)
    ∧ (∀ cfg : Dist.FSMConfig T,
        (Dist.FSM.ofConfig cfg).currentState = cfg.initialState)
    ∧ (∀ cfg : Dist.FSMConfig T,
        lookupState (Dist.FSM.ofConfig cfg).states cfg.initialState
            = none →
        ∃ e, (Dist.FSM.start (Dist.FSM.ofConfig cfg)).err = some e) := by
  refine ⟨?_, ?_, ?_, ?_⟩
  · intro h
    unfold lookupState at h
    by_cases hinit : b.initialState = ""
    · refine ⟨"Initial state is not set!", ?_⟩
      unfold FSMBuilder.build FSMBuilder.validateInitialState
      simp [hinit]
    · refine ⟨"State " ++ b.initialState
        ++ " cannot be initial state, because it does not exist!", ?_⟩
      unfold FSMBuilder.build FSMBuilder.validateInitialState
      simp [hinit, h]
  · intro st ts tc hst hts htc hany
    cases hv : FSMBuilder.validateInitialState b with
    | some e =>
        refine ⟨e, ?_⟩
        unfold FSMBuilder.build
        rw [hv]
    | none =>
        have hvt : FSMBuilder.validateTransitions b.states ≠ none := by
          intro hn
          unfold FSMBuilder.validateTransitions at hn
          have h1 := List.findSome?_eq_none_iff.mp hn st hst
          rw [hts] at h1
          have h2 := List.findSome?_eq_none_iff.mp h1 tc htc
          rw [hany] at h2
          simp at h2
        obtain ⟨e, he⟩ := Option.ne_none_iff_exists'.mp hvt
        refine ⟨e, ?_⟩
        unfold FSMBuilder.build
        rw [hv, he]
  · intro cfg
    rfl
  · intro cfg h
    refine ⟨"Initial state " ++ cfg.initialState ++ " not found", ?_⟩
    unfold Dist.FSM.start
    simp only [Dist.FSM.ofConfig] at h ⊢
    simp [h]

/-- Witness for C1: the concrete Stop-strategy machine wSrc, caught
mid-entry, cancels execution 7 first and exactly once. -/
theorem fsm_c1_witness :
    (Src.handleStoreChange 9 wSrc).tr
        = Event.stopExec (some 7)
          :: (Src.checkTransitionsF 9
              { wSrc with
                  currentEnterExecutionId := none
                  isExecutingLifecycle := false }).tr
      ∧ countStop (Src.checkTransitionsF 9
          { wSrc with
              currentEnterExecutionId := none
              isExecutingLifecycle := false }).tr = 0
      ∧ (Src.handleStoreChange 9 wSrc).m.currentEnterExecutionId
          = none :=
  fsm_c1 9 wSrc wA wTs 7 rfl rfl rfl rfl rfl rfl

/-- Witness for C2: on snapshot (-1, 1) the first condition of wA is
satisfied, selects B and is the only condition evaluated. -/
theorem fsm_c2_witness :
    Dist.canTransit wDistRun "A" (-1) 1
        = some ((wTs.get ⟨0, by decide⟩).toState)
      ∧ evalCount wTs (-1) 1 = 0 + 1 :=
  fsm_c2 wDistRun "A" (-1) 1 wA wTs 0 (by decide) rfl rfl rfl
    (by decide) (fun j hj hji => absurd hji (Nat.not_lt_zero j))

/-- Witness for C3: two concrete mutations are both evaluated, in
arrival order, and the queue ends empty. -/
theorem fsm_c3_witness :
    evalSnaps (Dist.deliverAll wDistRun
        [fun _ => (5 : Int), fun x => x + 1]).2
        = Dist.expectedSnaps wDistRun.storeCur
            [fun _ => (5 : Int), fun x => x + 1]
      ∧ (Dist.deliverAll wDistRun
          [fun _ => (5 : Int), fun x => x + 1]).1.storeStates = [] :=
  fsm_c3 wDistRun [fun _ => (5 : Int), fun x => x + 1] rfl rfl rfl

/-- Witness for C4 (amended): concrete transition A to B; exit run 0 is
fire-and-forget, enter run 1 is tracked and is what stop() cancels. -/
theorem fsm_c4_witness :
    (Dist.transition wDistRun "A" "B" none (-1, 1)).tr
        = [Event.createExec 0 "A" .onExit, Event.runExec 0 false,
           Event.createExec 1 "B" .onEnter, Event.runExec 1 true]
          ++ (if wB.subStates then [Event.subStart "B"] else [])
      ∧ (Dist.transition wDistRun "A" "B"
          none (-1, 1)).m.currentExecutionId = some 1
      ∧ (Dist.FSM.stop
          (Dist.transition wDistRun "A" "B" none (-1, 1)).m).tr.head?
          = some (Event.stopExec (some 1)) :=
  fsm_c4_amended wDistRun "A" "B" none (-1, 1) wA wB (.groups [])
    (.groups []) rfl rfl rfl rfl rfl rfl

/-- Counterexample for C4 as stated: the exit run 0 is dispatched, but
a subsequent stop() never stops handle 0 — only the tracked enter
handle 1 — so stray exit work is not cancellable. -/
theorem fsm_c4_counterexample :
    (Dist.transition wDistRun "A" "B" none (-1, 1)).tr.count
        (Event.runExec 0 false) = 1
      ∧ (Dist.FSM.stop
          (Dist.transition wDistRun "A" "B" none (-1, 1)).m).tr.count
          (Event.stopExec (some 0)) = 0
      ∧ (Dist.transition wDistRun "A" "B"
          none (-1, 1)).m.currentExecutionId = some 1 := by
  exact ⟨rfl, rfl, rfl⟩

/-- Witness for C5 (amended): the three resolver clauses at concrete
states, and the latest-variant update() not cancelling under a
function-valued strategy returning Stop. -/
theorem fsm_c5_witness :
    Src.getTransitionStrategy wSrc wN "" = TransitionStrategy.wait
      ∧ Src.getTransitionStrategy wSrc wA "" = TransitionStrategy.stop
      ∧ Src.getTransitionStrategy wSrc wF "" = TransitionStrategy.stop
      ∧ countStop (Dist.FSM.update wDistF (fun x => x)).tr = 0 :=
  ⟨(fsm_c5_amended (T := Int)).1 wSrc wN "" rfl,
   (fsm_c5_amended (T := Int)).2.1 wSrc wA "" .stop rfl,
   ((fsm_c5_amended (T := Int)).2.2.1 wSrc wF ""
     (fun _ => .stop) rfl).trans rfl,
   (fsm_c5_amended (T := Int)).2.2.2 wDistF wF (fun _ => .stop)
     (fun x => x) rfl rfl⟩

/-- Counterexample for C5 as stated: state F resolves (via its
function) to Stop and execution 3 is in flight, yet update() issues no
stop call, because it compares the raw field with the static value. -/
theorem fsm_c5_counterexample :
    wF.transitionStrategy
        = StrategySpec.func (fun _ => TransitionStrategy.stop)
      ∧ wDistF.currentExecutionId = some 3
      ∧ wDistF.isRunning = true
      ∧ countStop (Dist.FSM.update wDistF (fun x => x)).tr = 0 := by
  exact ⟨rfl, rfl, rfl, rfl⟩

/-- Witness for C6 (amended): with both hooks configured, dispatches
into states with actions invoke the hook between create and run, and
dispatches into the actionless state N invoke nothing. -/
theorem fsm_c6_witness :
    (Dist.processOnEnter wDistH "N" "A" (0, 0)).tr = []
      ∧ (Dist.processOnEnter wDistH "B" "A" (0, 0)).tr
          = [Event.createExec 0 "B" .onEnter,
             Event.hook .onEnter "A" "B", Event.runExec 0 true]
      ∧ (Dist.processOnExit wDistH "N" none).tr = []
      ∧ (Dist.processOnExit wDistH "A" none).tr
          = [Event.createExec 0 "A" .onExit,
             Event.hook .onExit "A" "", Event.runExec 0 false] :=
  ⟨(fsm_c6_amended (T := Int)).1 wDistH "N" "A" (0, 0) wN rfl rfl,
   (fsm_c6_amended (T := Int)).2.1 wDistH "B" "A" (0, 0) wB
     (.groups []) rfl rfl rfl,
   (fsm_c6_amended (T := Int)).2.2.1 wDistH "N" none wN rfl rfl,
   (fsm_c6_amended (T := Int)).2.2.2 wDistH "A" none wA
     (.groups []) rfl rfl rfl⟩

/-- Counterexample for C6 as stated: a transition into the actionless
state N, with the global onEnter hook configured, never invokes that
hook. -/
theorem fsm_c6_counterexample :
    wDistH.hooksOnEnter = true
      ∧ countCreate (Dist.transition wDistH "A" "N" none (0, 0)).tr = 1
      ∧ countHook LMethod.onEnter
          (Dist.transition wDistH "A" "N" none (0, 0)).tr = 0 := by
  exact ⟨rfl, rfl, rfl⟩

/-- Witness for C8 (amended): both validation failures at concrete
builders, and the direct constructor returning a machine for the same
invalid configuration, failing only at start(). -/
theorem fsm_c8_witness :
    (∃ e, FSMBuilder.build c8bInit = Except.error e)
      ∧ (∃ e, FSMBuilder.build c8bTrans = Except.error e)
      ∧ (Dist.FSM.ofConfig c8cfg).currentState = c8cfg.initialState
      ∧ (∃ e, (Dist.FSM.start (Dist.FSM.ofConfig c8cfg)).err
          = some e) :=
  ⟨(fsm_c8_amended c8bInit).1 rfl,
   (fsm_c8_amended c8bTrans).2.1
     { name := "A", transitions := some wTs } wTs
     { toState := "B", condition := fun c _ => decide (c < 0) }
     (List.mem_singleton.mpr rfl) rfl (List.mem_singleton.mpr rfl) rfl,
   (fsm_c8_amended c8bInit).2.2.1 c8cfg,
   (fsm_c8_amended c8bInit).2.2.2 c8cfg rfl⟩

/-- Counterexample for C8 as stated: the direct constructor accepts an
undeclared initial state, returns a machine whose currentState is not
in the state table, and the failure surfaces only at start(). -/
theorem fsm_c8_counterexample :
    (Dist.FSM.ofConfig c8cfg).currentState = "Z"
      ∧ lookupState (Dist.FSM.ofConfig c8cfg).states "Z" = none
      ∧ (Dist.FSM.start (Dist.FSM.ofConfig c8cfg)).err
          = some ("Initial state " ++ "Z" ++ " not found") := by
  exact ⟨rfl, rfl, rfl⟩

/-- Witness for C9 (amended): a no-op update on the quiescent machine
wDist9, none of whose conditions hold on the unchanged data, fires
nothing and awaits the gate once. -/
theorem fsm_c9_witness :
    (Dist.FSM.update wDist9 (fun x => x)).m.currentState
        = wDist9.currentState
      ∧ countCreate (Dist.FSM.update wDist9 (fun x => x)).tr = 0
      ∧ countGateReset (Dist.FSM.update wDist9 (fun x => x)).tr = 0
      ∧ countAwaitGate (Dist.FSM.update wDist9 (fun x => x)).tr = 1 :=
  fsm_c9_amended wDist9 (fun x => x) wA wTs rfl rfl rfl rfl rfl rfl
    (by decide)

/-- Counterexample for C9 as stated: after start() the machine rests in
A; a single update() with the identity (empty-partial) updater fires
the always-true transition and moves the machine to B. -/
theorem fsm_c9_counterexample :
    (Dist.FSM.start (Dist.FSM.ofConfig uCfg)).m.currentState = "A"
      ∧ (Dist.FSM.update (Dist.FSM.start (Dist.FSM.ofConfig uCfg)).m
          (fun x => x)).m.currentState = "B" := by
  exact ⟨rfl, rfl⟩

/-- Witness for C10: transitioning the concrete machine to the
undeclared target Z throws, emits nothing and leaves the machine
unchanged. -/
theorem fsm_c10_witness :
    (Dist.transition wDistRun "A" "Z" none (0, 0)).m = wDistRun
      ∧ (Dist.transition wDistRun "A" "Z" none (0, 0)).tr = []
      ∧ (Dist.transition wDistRun "A" "Z" none (0, 0)).err
          = some ("State " ++ "A" ++ " or " ++ "Z" ++ " not found") :=
  fsm_c10 wDistRun "A" "Z" none (0, 0) rfl
